import Mathlib

/-!
# Verification of the Document Exporter (client-side PDF export)

Shallow embedding of `src/client/src/components/ExportConversationPDF.tsx`.

The exporter converts an ordered transcript of chat messages into a
paginated document.  The embedding below models, faithfully to the source:

* the inline bold tokenizer (the JS loop around `/\*\*(.*?)\*\*/g`,
  lines 155-178),
* the greedy run-packing line wrapper (lines 180-222),
* the page-break helper `checkNewPage` (lines 73-80),
* the render pass producing the ordered stream of drawing operations
  (header, per-message header, content, references, footer),
* the filename sanitizer and entry-point guard (lines 52-56, 284-291).

Opaque host facilities (jsPDF text measurement `getTextWidth`,
`splitTextToSize`, and `Date` formatting) are parameters of the model:
the source calls them but never inspects their internals.
Text is modelled as `List Char`; page geometry is in mm over `ℚ`
(A4 portrait: 210 × 297, as returned by `pageSize.getWidth/getHeight`).
-/

namespace PDFExport

/-- Font style set via `doc.setFont("helvetica", style)`. -/
inductive Style where
  | normal
  | bold
deriving DecidableEq, Repr

/-- A styled run, the JS objects `{text: string, bold: boolean}` pushed
into `parts` (line 156). -/
structure Part where
  text : List Char
  bold : Bool
deriving DecidableEq, Repr

/-- Style under which a part is drawn: `p.bold ? "bold" : "normal"` (line 195). -/
def styleOf (p : Part) : Style := if p.bold then Style.bold else Style.normal

/-- Opaque model of jsPDF `getTextWidth`: width of a string under a font
style and font size, in the document unit (mm).  Widths are modelled as
integers: every comparison the source makes against a width has an integer
bound, so integer-valued measures express all the layout decisions while
keeping the model kernel-computable. -/
def Measure : Type := Style → ℤ → List Char → ℤ

/-- Opaque model of jsPDF `splitTextToSize` as used by `wrapText(text,
maxWidth, fontSize)` (lines 46-50): splits a string into visual lines. -/
def WrapT : Type := ℤ → ℤ → List Char → List (List Char)

/-- First occurrence of the literal `**` in a char list: returns the text
before it and the text after it.  This is the leftmost match of the `\*\*`
prefix of the regex `/\*\*(.*?)\*\*/g` (line 155). -/
def splitFirstSS : List Char → Option (List Char × List Char)
  | [] => none
  | [_] => none
  | c1 :: c2 :: rest =>
    if c1 = '*' ∧ c2 = '*' then some ([], rest)
    else (splitFirstSS (c2 :: rest)).map (fun pr => (c1 :: pr.1, pr.2))

/-- The JS tokenizer loop (lines 157-173): repeatedly `exec` the regex
`/\*\*(.*?)\*\*/g`; text before a match is pushed plain when non-empty, the
group inside a complete `**...**` pair is pushed bold, and after the last
successful match the remaining text is pushed plain when non-empty.
A `**` with no later closing `**` never matches, so the whole remaining
text (markers included) is pushed as one plain part.
With an explicit fuel bound the definition is structurally recursive; each
complete `**...**` match consumes at least four characters, so `cs.length`
steps always suffice (see `parseBoldAux_eq`). -/
def parseBoldGo : ℕ → List Char → List Part
  | 0, cs => if cs = [] then [] else [⟨cs, false⟩]
  | fuel + 1, cs =>
    match splitFirstSS cs with
    | none => if cs = [] then [] else [⟨cs, false⟩]
    | some (pre, rest1) =>
      match splitFirstSS rest1 with
      | none => if cs = [] then [] else [⟨cs, false⟩]
      | some (inner, rest2) =>
        (if pre = [] then [] else [⟨pre, false⟩]) ++ ⟨inner, true⟩ :: parseBoldGo fuel rest2

/-- The JS tokenizer loop over one logical line (lines 157-173). -/
def parseBoldAux (cs : List Char) : List Part := parseBoldGo cs.length cs

/-- The complete tokenizer for one logical line: the parts produced by the
regex loop, with the fallback `if (parts.length === 0) parts.push({text:
line, bold: false})` (lines 176-178). -/
def tokenize (cs : List Char) : List Part :=
  let parts := parseBoldAux cs
  if parts = [] then [⟨cs, false⟩] else parts

/-- `true` iff the char list contains the substring `**`. -/
def hasSS : List Char → Bool
  | [] => false
  | [_] => false
  | c1 :: c2 :: rest => (c1 = '*' && c2 = '*') || hasSS (c2 :: rest)

/-! ## Page geometry (lines 60-70)

A4 portrait in mm: `pageSize.getWidth() = 210`, `pageSize.getHeight() = 297`.
The vertical cursor `yPosition` only ever takes integer values in the
source (its initial values and every advance and bound are integer
constants), so the cursor and the page geometry are modelled over `ℤ`. -/

/-- `doc.internal.pageSize.getWidth()` for A4 portrait in mm. -/
def pageWidth : ℤ := 210

/-- `doc.internal.pageSize.getHeight()` for A4 portrait in mm. -/
def pageHeight : ℤ := 297

/-- `const margin = 15` (line 68). -/
def margin : ℤ := 15

/-- `const maxWidth = pageWidth - 2 * margin` (line 69). -/
def maxWidth : ℤ := pageWidth - 2 * margin

/-! ## Greedy run-packing line wrapper (lines 180-222)

The decisions of the wrapper (which runs share a visual line) depend only
on the measured widths, not on the vertical cursor, so they are modelled
here as a pure function from the part list to the list of visual lines;
the drawing side effects are modelled separately by `packRender` below. -/

/-- The greedy packing loop (lines 184-210) plus the final flush (lines
213-222), restricted to its grouping decisions.  `curText` is the JS
`currentLineText` accumulator, `curParts` the JS `currentLineParts`.
The width test is the source's: the accumulated text plus the next part's
text, measured after `doc.setFont("helvetica", "normal")` at the current
font size 10 (lines 185-187), compared against `maxWidth - 6` (line 189). -/
def packLines (m : Measure) : List Part → List Char → List Part → List (List Part)
  | [], _, curParts => if curParts = [] then [] else [curParts]
  | p :: rest, curText, curParts =>
    let test := curText ++ p.text
    if m Style.normal 10 test > maxWidth - 6 then
      (if curParts = [] then [] else [curParts]) ++ packLines m rest p.text [p]
    else
      packLines m rest test (curParts ++ [p])

/-- The visual lines produced for a list of styled runs (initial
accumulators empty, lines 181-182). -/
def visualLines (m : Measure) (parts : List Part) : List (List Part) :=
  packLines m parts [] []

/-- Concatenation of the texts of a list of runs. -/
def concatTexts (ps : List Part) : List Char :=
  (ps.map Part.text).flatten

/-- Concatenation of the texts of all runs of all visual lines. -/
def concatLines (ls : List (List Part)) : List Char :=
  (ls.map concatTexts).flatten

/-- Modelled from the spec: the same greedy packer, but with the overflow
test measuring each accumulated run under the style that will actually
render it ("width measurement must be done under the style that will
actually render that run, not a uniform font", spec section 4.2 step 2),
summing the per-run widths. -/
def specPackLines (m : Measure) : List Part → List Part → List (List Part)
  | [], curParts => if curParts = [] then [] else [curParts]
  | p :: rest, curParts =>
    let test := curParts ++ [p]
    if ((test.map (fun q => m (styleOf q) 10 q.text)).sum : ℤ) > maxWidth - 6 then
      (if curParts = [] then [] else [curParts]) ++ specPackLines m rest [p]
    else
      specPackLines m rest test

/-- Modelled from the spec: visual lines under style-faithful measurement. -/
def specVisualLines (m : Measure) (parts : List Part) : List (List Part) :=
  specPackLines m parts []

/-! ## Data model (lines 7-25) -/

/-- One `searchResults` entry (lines 12-17). -/
structure SearchResult where
  title : String
  url : String
  snippet : String
  date : Option String
deriving DecidableEq, Repr

/-- A chat message (lines 7-19).  `createdAt = some ""` models a present
but empty timestamp string, which is falsy in JS exactly like an absent
one. -/
structure Message where
  id : String
  role : String
  content : String
  citations : Option (List String)
  searchResults : List SearchResult
  createdAt : Option String
deriving DecidableEq, Repr

/-- `formatDate` (lines 34-44): with no date string (or an empty one,
both falsy) it falls back to the export moment `now`
(`new Date().toLocaleDateString()`); otherwise it formats the given
date string via the opaque locale formatter `fmt`
(`new Date(dateStr).toLocaleString("en-US", ...)`). -/
def formatDate (now : String) (fmt : String → String) : Option String → String
  | none => now
  | some s => if s = "" then now else fmt s

/-! ## Drawing operations

The render pass is modelled as the ordered stream of `doc.*` calls the
source makes, mirrored one call to one operation, styling `set` calls
included.  Coordinates are in mm over `ℚ` (the only non-integer constant
in the source is the `yPosition + 5.5` text baseline). -/

/-- One jsPDF call made by the export routine. -/
inductive Op where
  | setFillColor (r g b : ℕ)
  | setTextColor (r g b : ℕ)
  | setFontSize (size : ℤ)
  | setFont (style : Style)
  | rect (x y w h : ℚ) (fill : Bool)
  | roundedRect (x y w h rx ry : ℚ)
  | text (s : List Char) (x y : ℚ)
  | textWithLink (s : List Char) (x y : ℚ) (url : List Char)
  | addPage
  | setPage (i : ℕ)

/-- The string drawn by an operation, when it draws one. -/
def opText : Op → Option (List Char)
  | .text s _ _ => some s
  | .textWithLink s _ _ _ => some s
  | _ => none

/-- The render cursor: vertical offset `yPosition` on the active page and
the 1-based index of the page being written.  The cursor only ever takes
integer values (every bound and advance in the source is an integer
constant), so `y : ℤ`. -/
structure RState where
  y : ℤ
  page : ℕ
deriving DecidableEq, Repr

/-- `checkNewPage(requiredSpace)` (lines 73-80): if the cursor plus the
required space would pass `pageHeight - margin - 10`, emit `doc.addPage()`,
reset the cursor to the top margin, and return `true`; otherwise change
nothing and return `false`. -/
def checkNewPage (s : RState) (requiredSpace : ℤ) : List Op × RState × Bool :=
  if s.y + requiredSpace > pageHeight - margin - 10 then
    ([Op.addPage], ⟨margin, s.page + 1⟩, true)
  else
    ([], s, false)

/-- The document header band (lines 82-96): fixed title, conversation
title truncated to 80 characters (empty title falls back to
`"Conversation"`), and the export timestamp. -/
def headerOps (now : String) (fmt : String → String) (conversationTitle : String) :
    List Op :=
  [ Op.setFillColor 52 73 94,
    Op.rect 0 0 (pageWidth : ℚ) 35 true,
    Op.setTextColor 255 255 255,
    Op.setFontSize 18,
    Op.setFont Style.bold,
    Op.text "MedChat - Medical Consultation".toList (margin : ℚ) 15,
    Op.setFontSize 11,
    Op.setFont Style.normal,
    Op.text ((if conversationTitle = "" then "Conversation" else conversationTitle).toList.take 80)
      (margin : ℚ) 23,
    Op.text ("Exported: " ++ formatDate now fmt none).toList (margin : ℚ) 29 ]

/-- The per-message header band without the timestamp (lines 107-124):
fill color and label color depend on the role, the sender label is
`userName` for user turns and `"MedChat AI"` otherwise. -/
def msgHeaderBaseOps (userName : String) (msg : Message) (y : ℤ) : List Op :=
  let isUser := msg.role = "user"
  [ (if isUser then Op.setFillColor 240 248 255 else Op.setFillColor 248 250 252),
    Op.roundedRect (margin : ℚ) (y : ℚ) (maxWidth : ℚ) 8 2 2,
    Op.setFontSize 10,
    Op.setFont Style.bold,
    (if isUser then Op.setTextColor 41 98 255 else Op.setTextColor 34 139 34),
    Op.text (if isUser then userName.toList else "MedChat AI".toList)
      ((margin : ℚ) + 3) ((y : ℚ) + 11/2) ]

/-- The timestamp part of the message header (lines 126-134): drawn only
when `message.createdAt` is truthy, right-aligned by measuring the
formatted time at normal style, size 8. -/
def msgHeaderTimeOps (m : Measure) (now : String) (fmt : String → String)
    (msg : Message) (y : ℤ) : List Op :=
  match msg.createdAt with
  | none => []
  | some s =>
    if s = "" then []
    else
      let timeText := formatDate now fmt (some s)
      [ Op.setFont Style.normal,
        Op.setFontSize 8,
        Op.setTextColor 120 120 120,
        Op.text timeText.toList
          ((pageWidth : ℚ) - (margin : ℚ) - (m Style.normal 8 timeText.toList : ℚ) - 3)
          ((y : ℚ) + 11/2) ]

/-- Drawing one packed visual line (lines 193-198 and 215-220): each run
is drawn at the running horizontal cursor under its own style, and the
cursor advances by the run's width measured under that style. -/
def renderRunLine (m : Measure) : List Part → ℤ → ℤ → List Op
  | [], _, _ => []
  | p :: rest, x, y =>
    Op.setFont (styleOf p)
      :: Op.text p.text (x : ℚ) (y : ℚ)
      :: renderRunLine m rest (x + m (styleOf p) 10 p.text) y

/-- Flushing the accumulated visual line (lines 190-199 and 213-222):
`checkNewPage(6)`, draw the runs starting at `margin + 3`, advance by 6. -/
def flushLine (m : Measure) (ps : List Part) (s : RState) : List Op × RState :=
  let c := checkNewPage s 6
  (c.1 ++ renderRunLine m ps (margin + 3) c.2.1.y, ⟨c.2.1.y + 6, c.2.1.page⟩)

/-- The greedy packing loop with its interleaved rendering (lines
180-222), threading the cursor: same grouping decisions as `packLines`,
flushing each completed visual line via `flushLine`. -/
def packRender (m : Measure) :
    List Part → List Char → List Part → RState → List Op × RState
  | [], _, curParts, s =>
    if curParts = [] then ([], s) else flushLine m curParts s
  | p :: rest, curText, curParts, s =>
    let test := curText ++ p.text
    if m Style.normal 10 test > maxWidth - 6 then
      if curParts = [] then packRender m rest p.text [p] s
      else
        let f := flushLine m curParts s
        let r := packRender m rest p.text [p] f.2
        (f.1 ++ r.1, r.2)
    else
      packRender m rest test (curParts ++ [p]) s

/-- `content.split('\n')` (line 144), modelled on char lists (JS `split`
on a single character; an empty content yields one empty line). -/
def splitLines : List Char → List (List Char)
  | [] => [[]]
  | c :: rest =>
    if c = '\n' then [] :: splitLines rest
    else
      match splitLines rest with
      | [] => [[c]]
      | l :: ls => (c :: l) :: ls

/-- `!line.trim()` (line 147): the line is empty or all whitespace. -/
def isBlank (line : List Char) : Bool :=
  line.all Char.isWhitespace

/-- Rendering one logical line (lines 146-223): a blank line only checks
space for and advances by one 5 mm blank-line spacer; a non-blank line is
tokenized and greedily packed into visual lines. -/
def renderLine (m : Measure) (line : List Char) (s : RState) : List Op × RState :=
  if isBlank line then
    let c := checkNewPage s 5
    (c.1, ⟨c.2.1.y + 5, c.2.1.page⟩)
  else
    packRender m (tokenize line) [] [] s

/-- Rendering a message's content (lines 138-223): set text color and
size, then render each logical line in order. -/
def renderContent (m : Measure) (content : String) (s : RState) : List Op × RState :=
  (splitLines content.toList).foldl
    (fun acc line =>
      let r := renderLine m line acc.2
      (acc.1 ++ r.1, r.2))
    ([Op.setTextColor 0 0 0, Op.setFontSize 10], s)

/-- Rendering one reference (lines 237-261): `checkNewPage(12)`, the
1-based-numbered title wrapped by `wrapText(titleText, maxWidth - 10, 9)`
with `checkNewPage(5)` per title line, then `checkNewPage(4)` and the
clickable URL, advancing 5 after each drawn line. -/
def renderRef (_m : Measure) (wrapT : WrapT) (idx : ℕ) (r : SearchResult)
    (s : RState) : List Op × RState :=
  let c := checkNewPage s 12
  let titleText := (toString (idx + 1)).toList ++ ". ".toList ++ r.title.toList
  let titleLines := wrapT (maxWidth - 10) 9 titleText
  let t := titleLines.foldl
    (fun acc line =>
      let c2 := checkNewPage acc.2 5
      (acc.1 ++ c2.1 ++ [Op.text line ((margin : ℚ) + 6) ((c2.2.1.y : ℤ) : ℚ)],
       ⟨c2.2.1.y + 5, c2.2.1.page⟩))
    (([] : List Op), c.2.1)
  let c3 := checkNewPage t.2 4
  (c.1
     ++ [Op.setFont Style.bold, Op.setFontSize 9, Op.setTextColor 0 0 0]
     ++ t.1
     ++ [Op.setFont Style.normal, Op.setFontSize 8, Op.setTextColor 41 98 255]
     ++ c3.1
     ++ [Op.textWithLink r.url.toList ((margin : ℚ) + 6) ((c3.2.1.y : ℤ) : ℚ) r.url.toList],
   ⟨c3.2.1.y + 5, c3.2.1.page⟩)

/-- The references block (lines 227-263): only emitted for a non-empty
`searchResults`; `checkNewPage(10)`, the `"References:"` label, 6 mm
advance, each reference in order, then a 3 mm gap. -/
def renderSearchResults (m : Measure) (wrapT : WrapT) (rs : List SearchResult)
    (s : RState) : List Op × RState :=
  if rs = [] then ([], s)
  else
    let c := checkNewPage s 10
    let hd := [Op.setFontSize 9, Op.setFont Style.bold, Op.setTextColor 70 70 70,
               Op.text "References:".toList ((margin : ℚ) + 3) ((c.2.1.y : ℤ) : ℚ)]
    let body := rs.enum.foldl
      (fun acc ir =>
        let r := renderRef m wrapT ir.1 ir.2 acc.2
        (acc.1 ++ r.1, r.2))
      (([] : List Op), (⟨c.2.1.y + 6, c.2.1.page⟩ : RState))
    (c.1 ++ hd ++ body.1, ⟨body.2.y + 3, body.2.page⟩)

/-- Rendering one message (lines 100-267): `checkNewPage(15)`, the header
band (with optional timestamp), a 10 mm advance, the content lines, a
3 mm gap, the references block, and a final 5 mm inter-message gap. -/
def renderMessage (m : Measure) (wrapT : WrapT) (now : String)
    (fmt : String → String) (userName : String) (msg : Message) (s : RState) :
    List Op × RState :=
  let c := checkNewPage s 15
  let s0 := c.2.1
  let hOps := msgHeaderBaseOps userName msg s0.y ++ msgHeaderTimeOps m now fmt msg s0.y
  let cnt := renderContent m msg.content ⟨s0.y + 10, s0.page⟩
  let refs := renderSearchResults m wrapT msg.searchResults ⟨cnt.2.y + 3, cnt.2.page⟩
  (c.1 ++ hOps ++ cnt.1 ++ refs.1, ⟨refs.2.y + 5, refs.2.page⟩)

/-- The footer pass (lines 269-281): once the page count is known, revisit
every page and stamp the centered footer line; `formatDate().split(",")[0]`
is the prefix of the export moment before the first comma. -/
def footerOps (m : Measure) (now : String) (fmt : String → String)
    (pageCount : ℕ) : List Op :=
  (List.range pageCount).flatMap (fun i0 =>
    let i := i0 + 1
    let footerText := "Page ".toList ++ (toString i).toList ++ "/".toList
      ++ (toString pageCount).toList ++ " | MedChat Medical AI | ".toList
      ++ (formatDate now fmt none).toList.takeWhile (fun c => c ≠ ',')
    [ Op.setPage i,
      Op.setFontSize 8,
      Op.setTextColor 150 150 150,
      Op.setFont Style.normal,
      Op.text footerText
        (((pageWidth : ℚ) - ((m Style.normal 8 footerText : ℤ) : ℚ)) / 2)
        ((pageHeight : ℚ) - 8) ])

/-- Filename character filter: the regex class `[a-z0-9]` with the `i`
flag (line 285). -/
def keepChar (c : Char) : Bool :=
  ('a' ≤ c && c ≤ 'z') || ('A' ≤ c && c ≤ 'Z') || ('0' ≤ c && c ≤ '9')

/-- `conversationTitle.replace(/[^a-z0-9]/gi, "_").substring(0, 50)`
(lines 284-286). -/
def sanitizeTitle (conversationTitle : String) : List Char :=
  (conversationTitle.toList.map (fun c => if keepChar c then c else '_')).take 50

/-- The output filename (line 287):
`MedChat_${sanitizedTitle}_${isoDate}.pdf`, with the ISO date part of
`new Date().toISOString().split("T")[0]` passed in opaquely. -/
def mkFilename (conversationTitle : String) (isoDate : String) : List Char :=
  "MedChat_".toList ++ sanitizeTitle conversationTitle ++ "_".toList
    ++ isoDate.toList ++ ".pdf".toList

/-- Outcome of `exportToPDF` (lines 52-298): either the fail-fast
empty-input error (lines 53-56, no drawing, no save), or the saved
document: its full ordered operation stream, its filename, and its page
count. -/
inductive ExportResult where
  | error (message : String)
  | saved (ops : List Op) (filename : List Char) (pageCount : ℕ)

/-- The filename handed to `doc.save`, if saving happened. -/
def savedFilename : ExportResult → Option (List Char)
  | .error _ => none
  | .saved _ fn _ => some fn

/-- The drawing operations performed (none on the error path). -/
def drawnOps : ExportResult → List Op
  | .error _ => []
  | .saved ops _ _ => ops

/-- The export entry point `exportToPDF` (lines 52-298): fail fast on an
empty message list (lines 53-56); otherwise draw the document header, set
the cursor to 42 on page 1, render every message, stamp the footer on
every page, and save under the sanitized filename. -/
def exportConversation (m : Measure) (wrapT : WrapT) (now : String)
    (fmt : String → String) (isoDate : String) (conversationTitle : String)
    (messages : List Message) (userName : String) : ExportResult :=
  if messages.length = 0 then ExportResult.error "No messages to export"
  else
    let body := messages.foldl
      (fun acc msg =>
        let r := renderMessage m wrapT now fmt userName msg acc.2
        (acc.1 ++ r.1, r.2))
      (headerOps now fmt conversationTitle, (⟨42, 1⟩ : RState))
    ExportResult.saved (body.1 ++ footerOps m now fmt body.2.page)
      (mkFilename conversationTitle isoDate) body.2.page

/-- A message with its `citations` field cleared; the rendering logic
never reads `citations`, which claim C9 states precisely. -/
def eraseCitations (msg : Message) : Message :=
  { msg with citations := none }

/-! ## Cursor step trace (for the claim C6 invariant)

The cursor-affecting operations of the layout pass (lines 100-267), as a
step list: `check h` is a `checkNewPage(h)` call, `adv h` an unconditional
`yPosition += h`.  `runTrace` records the state after every step. -/

/-- One cursor-modifying step of the layout pass. -/
inductive Step where
  | check (h : ℤ)
  | adv (h : ℤ)
deriving DecidableEq, Repr

/-- Effect of one step on the cursor (matching `checkNewPage`,
lines 73-80, and the `yPosition +=` advances). -/
def stepRun (s : RState) : Step → RState
  | .check h => if s.y + h > pageHeight - margin - 10 then ⟨margin, s.page + 1⟩ else s
  | .adv h => ⟨s.y + h, s.page⟩

/-- The list of states after each successive step. -/
def runTrace (s : RState) : List Step → List RState
  | [] => []
  | st :: rest =>
    let s' := stepRun s st
    s' :: runTrace s' rest

/-- Cursor steps of one logical line (lines 146-223): a blank line checks
and advances 5; a non-blank line checks and advances 6 per visual line. -/
def lineSteps (m : Measure) (line : List Char) : List Step :=
  if isBlank line then [Step.check 5, Step.adv 5]
  else (visualLines m (tokenize line)).flatMap (fun _ => [Step.check 6, Step.adv 6])

/-- Cursor steps of one reference entry (lines 237-261). -/
def refSteps (wrapT : WrapT) (idx : ℕ) (r : SearchResult) : List Step :=
  Step.check 12
    :: ((wrapT (maxWidth - 10) 9
          ((toString (idx + 1)).toList ++ ". ".toList ++ r.title.toList)).flatMap
        (fun _ => [Step.check 5, Step.adv 5])
      ++ [Step.check 4, Step.adv 5])

/-- Cursor steps of the references block (lines 227-263). -/
def searchResultsSteps (wrapT : WrapT) (rs : List SearchResult) : List Step :=
  if rs = [] then []
  else Step.check 10 :: Step.adv 6
    :: (rs.enum.flatMap (fun ir => refSteps wrapT ir.1 ir.2) ++ [Step.adv 3])

/-- Cursor steps of one message (lines 100-267). -/
def msgSteps (m : Measure) (wrapT : WrapT) (msg : Message) : List Step :=
  Step.check 15 :: Step.adv 10
    :: ((splitLines msg.content.toList).flatMap (lineSteps m)
      ++ [Step.adv 3] ++ searchResultsSteps wrapT msg.searchResults ++ [Step.adv 5])

/-- Cursor steps of the whole message loop. -/
def conversationSteps (m : Measure) (wrapT : WrapT) (msgs : List Message) :
    List Step :=
  msgs.flatMap (msgSteps m wrapT)

/-- Cursor state when the message loop starts (line 97): `yPosition = 42`
below the document header, on page 1. -/
def initState : RState := ⟨42, 1⟩

/-- The usable bottom bound of a page: the cursor budget `checkNewPage`
enforces, `pageHeight - margin - 10` (line 74). -/
def usableBound : ℤ := pageHeight - margin - 10

/-- Every state reached immediately after a `check` step satisfies the
bound. -/
def checksOk (s : RState) : List Step → Prop
  | [] => True
  | Step.check h :: rest =>
      (stepRun s (Step.check h)).y ≤ usableBound
        ∧ checksOk (stepRun s (Step.check h)) rest
  | Step.adv h :: rest => checksOk (stepRun s (Step.adv h)) rest

/-- All `check` steps of a step list carry a nonnegative height. -/
def checksNonneg (steps : List Step) : Prop :=
  ∀ h : ℤ, Step.check h ∈ steps → 0 ≤ h

/-- A trivial `splitTextToSize` model: the whole text on one line.  Used
as a concrete opaque-parameter instance. -/
def wrapOne : WrapT := fun _ _ t => [t]

/-- A trivial locale formatter instance. -/
def fmtId : String → String := fun s => s

/-- Concrete message used in the claim C6 counterexample: a user message
whose content is 44 blank logical lines (43 newline characters).
Processing it from the initial state drives the cursor to exactly the
usable bound, after which the unchecked `yPosition += 3` and
`yPosition += 5` advances (lines 225, 266) push the cursor past the bound
with no page break. -/
def blankLinesMsg : Message :=
  ⟨"m1", "user", String.mk (List.replicate 43 '\n'), none, [], none⟩

/-- Concrete message used in the claim C7 counterexample: no `createdAt`. -/
def noTimestampMsg : Message :=
  ⟨"m1", "user", "hello", none, [], none⟩

/-- Example measures used as concrete inputs below: a measure under which
every string has width zero, and one under which any text measured in the
bold style is wide. -/
def mZero : Measure := fun _ _ _ => 0

/-- A measure giving width 999 to any text measured in the bold style and
width 0 otherwise; it agrees with `mZero` on the normal style. -/
def mBoldWide : Measure := fun st _ _ => if st = Style.bold then 999 else 0

/-- Concrete messages differing only in `citations`. -/
def citedMsg : Message := ⟨"m1", "user", "hi", some ["https://x"], [], none⟩

/-- `citedMsg` with no citations. -/
def uncitedMsg : Message := ⟨"m1", "user", "hi", none, [], none⟩

/-! ## Helper lemmas about the tokenizer and the wrapper -/

/-- `splitFirstSS` decomposes its input around a `**` occurrence. -/
theorem splitFirstSS_append : ∀ cs pre post, splitFirstSS cs = some (pre, post) →
    cs = pre ++ '*' :: '*' :: post := by
  intro cs
  induction cs with
  | nil => intro pre post h; simp [splitFirstSS] at h
  | cons c1 tl ih =>
    intro pre post h
    cases tl with
    | nil => simp [splitFirstSS] at h
    | cons c2 rest =>
      by_cases hss : c1 = '*' ∧ c2 = '*'
      · simp only [splitFirstSS, if_pos hss, Option.some.injEq, Prod.mk.injEq] at h
        obtain ⟨h1, h2⟩ := h
        subst h1
        subst h2
        simp [hss.1, hss.2]
      · simp only [splitFirstSS, if_neg hss, Option.map_eq_some'] at h
        obtain ⟨⟨pr1, pr2⟩, hrec, hpr⟩ := h
        simp only [Prod.mk.injEq] at hpr
        obtain ⟨hpre, hpost⟩ := hpr
        subst hpre
        subst hpost
        simpa using ih pr1 pr2 hrec

/-- Length bound used for termination of the tokenizer. -/
theorem splitFirstSS_length {cs pre post : List Char}
    (h : splitFirstSS cs = some (pre, post)) :
    post.length + 2 ≤ cs.length := by
  have := splitFirstSS_append cs pre post h
  subst this
  simp

/-- The fuel argument is irrelevant once it is at least the input length. -/
theorem parseBoldGo_congr : ∀ fuel cs, List.length cs ≤ fuel →
    parseBoldGo fuel cs = parseBoldAux cs := by
  intro fuel
  induction fuel using Nat.strong_induction_on with
  | _ fuel ih =>
    intro cs h
    match fuel, h with
    | 0, h =>
      have : cs = [] := List.length_eq_zero.mp (Nat.le_zero.mp h)
      subst this
      rfl
    | n + 1, h =>
      unfold parseBoldAux
      cases hlen : cs.length with
      | zero =>
        have : cs = [] := List.length_eq_zero.mp hlen
        subst this
        rfl
      | succ k =>
        have hk_le_n : k ≤ n := by omega
        show parseBoldGo (n + 1) cs = parseBoldGo (k + 1) cs
        unfold parseBoldGo
        split
        next => rfl
        next pre rest1 h1 =>
          split
          next => rfl
          next inner rest2 h2 =>
            have l1 := splitFirstSS_length h1
            have l2 := splitFirstSS_length h2
            rw [ih n (by omega) rest2 (by omega), ih k (by omega) rest2 (by omega)]

/-- Unfolding equation: `parseBoldAux` satisfies the recursion of the JS
tokenizer loop exactly. -/
theorem parseBoldAux_eq (cs : List Char) :
    parseBoldAux cs =
      match splitFirstSS cs with
      | none => if cs = [] then [] else [⟨cs, false⟩]
      | some (pre, rest1) =>
        match splitFirstSS rest1 with
        | none => if cs = [] then [] else [⟨cs, false⟩]
        | some (inner, rest2) =>
          (if pre = [] then [] else [⟨pre, false⟩]) ++ ⟨inner, true⟩ :: parseBoldAux rest2 := by
  cases hlen : cs.length with
  | zero =>
    have : cs = [] := List.length_eq_zero.mp hlen
    subst this
    rfl
  | succ k =>
    show parseBoldGo cs.length cs = _
    rw [hlen]
    unfold parseBoldGo
    split
    next => rfl
    next pre rest1 h1 =>
      split
      next => rfl
      next inner rest2 h2 =>
        have l1 := splitFirstSS_length h1
        have l2 := splitFirstSS_length h2
        rw [parseBoldGo_congr k rest2 (by omega)]

/-- If a line contains no `**` at all, the regex never matches. -/
theorem splitFirstSS_eq_none_of_not_hasSS : ∀ cs : List Char, hasSS cs = false →
    splitFirstSS cs = none := by
  intro cs
  induction cs with
  | nil => intro _; rfl
  | cons c1 tl ih =>
    intro h
    cases tl with
    | nil => rfl
    | cons c2 rest =>
      simp [hasSS] at h
      obtain ⟨h1, h2⟩ := h
      have hne : ¬ (c1 = '*' ∧ c2 = '*') := by
        intro hc; exact h1 hc.1 hc.2
      simp [splitFirstSS, hne, ih h2]

/-- Reading `parseBoldAux` when no `**` occurs at all. -/
theorem parseBoldAux_none (cs : List Char) (h : splitFirstSS cs = none) :
    parseBoldAux cs = if cs = [] then [] else [⟨cs, false⟩] := by
  rw [parseBoldAux_eq, h]

/-- Reading `parseBoldAux` when an opening `**` has no closing `**`. -/
theorem parseBoldAux_noClose (cs pre rest1 : List Char)
    (h1 : splitFirstSS cs = some (pre, rest1)) (h2 : splitFirstSS rest1 = none) :
    parseBoldAux cs = if cs = [] then [] else [⟨cs, false⟩] := by
  rw [parseBoldAux_eq]
  simp only [h1, h2]

/-- Reading `parseBoldAux` on a complete `**...**` pair. -/
theorem parseBoldAux_pair (cs pre rest1 inner rest2 : List Char)
    (h1 : splitFirstSS cs = some (pre, rest1))
    (h2 : splitFirstSS rest1 = some (inner, rest2)) :
    parseBoldAux cs =
      (if pre = [] then [] else [⟨pre, false⟩]) ++ ⟨inner, true⟩ :: parseBoldAux rest2 := by
  rw [parseBoldAux_eq]
  simp only [h1, h2]

theorem concatTexts_nil : concatTexts [] = [] := rfl

theorem concatTexts_cons (p : Part) (ps : List Part) :
    concatTexts (p :: ps) = p.text ++ concatTexts ps := by
  simp [concatTexts]

theorem concatTexts_append (a b : List Part) :
    concatTexts (a ++ b) = concatTexts a ++ concatTexts b := by
  simp [concatTexts]

theorem concatLines_nil : concatLines [] = [] := rfl

theorem concatLines_cons (l : List Part) (ls : List (List Part)) :
    concatLines (l :: ls) = concatTexts l ++ concatLines ls := by
  simp [concatLines]

theorem concatLines_append (a b : List (List Part)) :
    concatLines (a ++ b) = concatLines a ++ concatLines b := by
  simp [concatLines]

/-- The greedy packer never drops, duplicates or splits run text: the
concatenation of the texts of all produced visual lines is the pending
accumulator's text followed by the text of the remaining runs. -/
theorem packLines_concat (m : Measure) :
    ∀ (ps : List Part) (t : List Char) (cur : List Part),
      concatLines (packLines m ps t cur) = concatTexts cur ++ concatTexts ps := by
  intro ps
  induction ps with
  | nil =>
    intro t cur
    by_cases hcur : cur = []
    · subst hcur; simp [packLines, concatLines_nil, concatTexts_nil]
    · simp [packLines, hcur, concatLines_cons, concatLines_nil, concatTexts_nil]
  | cons p rest ih =>
    intro t cur
    show concatLines (if m Style.normal 10 (t ++ p.text) > maxWidth - 6 then _ else _) = _
    by_cases hw : m Style.normal 10 (t ++ p.text) > maxWidth - 6
    · rw [if_pos hw, concatLines_append, ih]
      by_cases hcur : cur = []
      · subst hcur
        simp [concatLines_nil, concatTexts_nil, concatTexts_cons]
      · simp [hcur, concatLines_cons, concatLines_nil, concatTexts_cons, concatTexts_nil]
    · rw [if_neg hw, ih, concatTexts_append, concatTexts_cons]
      simp [concatTexts_nil, concatTexts_cons]
theorem hasSS_cons_false {c : Char} {cs : List Char} (h : hasSS (c :: cs) = false) :
    hasSS cs = false := by
  cases cs with
  | nil => rfl
  | cons c2 rest =>
    simp only [hasSS, Bool.or_eq_false_iff] at h
    exact h.2

/-- A line containing no `**` tokenizes to a single plain run holding the
whole line. -/
theorem tokenize_no_marker (line : List Char) (h : hasSS line = false) :
    tokenize line = [⟨line, false⟩] := by
  have hs := splitFirstSS_eq_none_of_not_hasSS line h
  have hp := parseBoldAux_none line hs
  unfold tokenize
  by_cases hline : line = []
  · subst hline
    simp at hp
    simp [hp]
  · rw [hp, if_neg hline]
    simp [hline]

/-- The first `**` of `a ++ ** ++ b` is the explicit one, provided `a`
contains no `**` and does not end in `*`. -/
theorem splitFirstSS_middle : ∀ (a b : List Char), hasSS a = false →
    a.getLast? ≠ some '*' → splitFirstSS (a ++ '*' :: '*' :: b) = some (a, b) := by
  intro a
  induction a with
  | nil =>
    intro b _ _
    simp [splitFirstSS]
  | cons c a' ih =>
    intro b hss hlast
    cases a' with
    | nil =>
      have hcne : c ≠ '*' := by
        intro hceq
        exact hlast (by simp [List.getLast?, hceq])
      show splitFirstSS (c :: '*' :: '*' :: b) = some ([c], b)
      simp [splitFirstSS, hcne]
    | cons c2 a'' =>
      have hcc : ¬ (c = '*' ∧ c2 = '*') := by
        intro hc
        simp only [hasSS, Bool.or_eq_false_iff] at hss
        rw [hc.1, hc.2] at hss
        simp at hss
      have hss' : hasSS (c2 :: a'') = false := hasSS_cons_false hss
      have hlast' : (c2 :: a'').getLast? ≠ some '*' := by
        rw [List.getLast?_cons_cons] at hlast
        exact hlast
      have := ih b hss' hlast'
      rw [List.cons_append] at this
      show splitFirstSS (c :: c2 :: (a'' ++ '*' :: '*' :: b)) = some (c :: c2 :: a'', b)
      simp only [splitFirstSS]
      rw [if_neg hcc, this]
      rfl

/-- The tokenizer leaves an unpaired `**` verbatim inside a plain run. -/
theorem tokenize_unpaired (a b : List Char) (ha : hasSS a = false)
    (hlast : a.getLast? ≠ some '*') (hb : hasSS b = false) :
    tokenize (a ++ '*' :: '*' :: b) = [⟨a ++ '*' :: '*' :: b, false⟩] := by
  have h1 := splitFirstSS_middle a b ha hlast
  have h2 := splitFirstSS_eq_none_of_not_hasSS b hb
  have hne : a ++ '*' :: '*' :: b ≠ [] := by simp
  have hp := parseBoldAux_noClose (a ++ '*' :: '*' :: b) a b h1 h2
  rw [if_neg hne] at hp
  unfold tokenize
  rw [hp]
  simp

/-- The packing decisions depend only on what the measure returns for the
normal style at font size 10: two measures agreeing there produce the same
visual lines. -/
theorem packLines_measure_congr (m m' : Measure)
    (h : ∀ t : List Char, m Style.normal 10 t = m' Style.normal 10 t) :
    ∀ (ps : List Part) (t : List Char) (cur : List Part),
      packLines m ps t cur = packLines m' ps t cur := by
  intro ps
  induction ps with
  | nil => intro t cur; rfl
  | cons p rest ih =>
    intro t cur
    show (if m Style.normal 10 (t ++ p.text) > maxWidth - 6 then _ else _)
       = (if m' Style.normal 10 (t ++ p.text) > maxWidth - 6 then _ else _)
    rw [h (t ++ p.text)]
    by_cases hw : m' Style.normal 10 (t ++ p.text) > maxWidth - 6
    · rw [if_pos hw, if_pos hw, ih]
    · rw [if_neg hw, if_neg hw, ih]

/-! ## Claims C3, C4, C5, C10: tokenizer and line wrapper -/

/-- C3, counterexample: for the logical line `"a **b** c"`, concatenating
the text of the visual lines does NOT reproduce the original line — the
four `*` marker characters are stripped by the tokenizer, so the claim
that the original logical line's text is reproduced exactly is false. -/
theorem c3_line_wrap_counterexample :
    ¬ (concatLines (visualLines mZero (tokenize "a **b** c".toList))
        = "a **b** c".toList) := by decide

/-- C3, amended: for every logical line, concatenating the text of all
visual lines produced by the greedy run-packing wrapper reproduces the
concatenation of the tokenizer's run texts (the line with each complete
`**...**` pair replaced by its enclosed text) exactly — the wrapper itself
drops and duplicates nothing. -/
theorem c3_line_wrap_amended (m : Measure) (line : List Char) :
    concatLines (visualLines m (tokenize line)) = concatTexts (tokenize line) := by
  unfold visualLines
  rw [packLines_concat]
  simp [concatTexts_nil]

/-- C4: the tokenizer maps `"a **b** c"` to exactly the run sequence
plain `"a "`, bold `"b"`, plain `" c"`; and every line containing no
emphasis marker `**` yields a single plain run holding the whole line. -/
theorem c4_emphasis_parsing :
    tokenize "a **b** c".toList
        = [⟨"a ".toList, false⟩, ⟨"b".toList, true⟩, ⟨" c".toList, false⟩]
    ∧ ∀ line : List Char, hasSS line = false → tokenize line = [⟨line, false⟩] := by
  constructor
  · decide
  · exact tokenize_no_marker

/-- C4, witness: the no-marker half applied to the concrete line
`"hello *x*"` (single stars are not emphasis markers). -/
theorem c4_emphasis_parsing_witness :
    hasSS "hello *x*".toList = false
    ∧ tokenize "hello *x*".toList = [⟨"hello *x*".toList, false⟩] :=
  ⟨by decide, c4_emphasis_parsing.2 "hello *x*".toList (by decide)⟩

/-- C5, counterexample: under a measure where bold text is wider than
normal text, the source's packing (which measures the accumulated text
under the uniform normal font, lines 186-187) differs from the packing the
claim describes (each run measured under the style that renders it): the
claim that the wrap decision is measured under the actual render style is
false. -/
theorem c5_width_measurement_counterexample :
    visualLines mBoldWide (tokenize "a **b** c".toList)
      ≠ specVisualLines mBoldWide (tokenize "a **b** c".toList) := by decide

/-- C5, amended: during greedy line packing the overflow test measures the
accumulated text under the uniform normal font at size 10, regardless of
the styles that will render the runs: two measures that agree on the
normal style at size 10 yield identical packing decisions even if they
disagree arbitrarily on the bold style. -/
theorem c5_width_measurement_amended (m m' : Measure)
    (h : ∀ t : List Char, m Style.normal 10 t = m' Style.normal 10 t)
    (parts : List Part) :
    visualLines m parts = visualLines m' parts :=
  packLines_measure_congr m m' h parts [] []

/-- C5, witness: `mZero` and `mBoldWide` agree on the normal style, so the
amended theorem applies even though they disagree on bold widths. -/
theorem c5_width_measurement_amended_witness :
    (∀ t : List Char, mZero Style.normal 10 t = mBoldWide Style.normal 10 t)
    ∧ visualLines mZero (tokenize "a **b** c".toList)
        = visualLines mBoldWide (tokenize "a **b** c".toList) :=
  ⟨fun _ => rfl,
   c5_width_measurement_amended mZero mBoldWide (fun _ => rfl)
     (tokenize "a **b** c".toList)⟩

/-- C10: a `**` marker with no later closing `**` is emitted verbatim
inside a plain run (stated for any line `a ++ ** ++ b` whose only `**`
occurrence is the explicit unpaired one), and in a line mixing a complete
pair with a trailing unpaired marker, only the complete pair is stripped
and emphasised while the unpaired `**` stays verbatim in a plain run. -/
theorem c10_unpaired_markers :
    (∀ a b : List Char, hasSS a = false → a.getLast? ≠ some '*' →
        hasSS b = false →
        tokenize (a ++ '*' :: '*' :: b) = [⟨a ++ '*' :: '*' :: b, false⟩])
    ∧ tokenize "a **b** c**".toList
        = [⟨"a ".toList, false⟩, ⟨"b".toList, true⟩, ⟨" c**".toList, false⟩] := by
  constructor
  · exact tokenize_unpaired
  · decide

/-- C10, witness: the unpaired-marker half applied to the concrete line
`"a **b"`. -/
theorem c10_unpaired_markers_witness :
    hasSS "a ".toList = false ∧ hasSS "b".toList = false
    ∧ tokenize "a **b".toList = [⟨"a **b".toList, false⟩] :=
  ⟨by decide, by decide,
   c10_unpaired_markers.1 "a ".toList "b".toList (by decide) (by decide) (by decide)⟩

/-! ## Claim C1: empty-input fail-fast -/

/-- C1: exporting an empty message list fails fast with the
"No messages to export" error signal, saves nothing and draws nothing. -/
theorem c1_empty_export_fails_fast (m : Measure) (wrapT : WrapT)
    (now : String) (fmt : String → String) (isoDate : String)
    (conversationTitle userName : String) :
    exportConversation m wrapT now fmt isoDate conversationTitle [] userName
        = ExportResult.error "No messages to export"
    ∧ savedFilename
        (exportConversation m wrapT now fmt isoDate conversationTitle [] userName)
        = none
    ∧ drawnOps
        (exportConversation m wrapT now fmt isoDate conversationTitle [] userName)
        = [] :=
  ⟨rfl, rfl, rfl⟩

/-! ## Claim C2: the page-break trigger -/

/-- C2: `checkNewPage(requiredSpace)` breaks exactly when the cursor plus
the required height passes the usable bottom bound
`pageHeight - bottomMargin - fixedFooterReserve` (here
`pageHeight - margin - 10 = 272`); on a break it returns `true` and the
new page's cursor is exactly the top margin with the page index bumped;
otherwise it returns `false` and the cursor is unchanged. -/
theorem c2_page_break_trigger (s : RState) (h : ℤ) :
    ((checkNewPage s h).2.2 = true ↔ s.y + h > pageHeight - margin - 10)
    ∧ ((checkNewPage s h).2.2 = true →
        (checkNewPage s h).2.1 = ⟨margin, s.page + 1⟩)
    ∧ ((checkNewPage s h).2.2 = false → (checkNewPage s h).2.1 = s) := by
  by_cases hb : s.y + h > pageHeight - margin - 10
  · simp [checkNewPage, hb]
  · simp [checkNewPage, hb]

/-- C2, witness: at cursor 270 a block of height 5 overflows the bound
272, so the break fires and resets the cursor to the top margin of the
next page; at cursor 42 the same block fits and nothing changes. -/
theorem c2_page_break_trigger_witness :
    ((270 : ℤ) + 5 > pageHeight - margin - 10)
    ∧ (checkNewPage ⟨270, 1⟩ 5).2.1 = ⟨margin, 1 + 1⟩
    ∧ (checkNewPage ⟨42, 1⟩ 5).2.1 = ⟨42, 1⟩ :=
  ⟨by decide,
   (c2_page_break_trigger ⟨270, 1⟩ 5).2.1 (by decide),
   (c2_page_break_trigger ⟨42, 1⟩ 5).2.2 (by decide)⟩

/-! ## Claim C7: absent timestamps -/

/-- C7, counterexample: for a message without `createdAt`, the message
header renders no timestamp at all — the export-moment string is not
drawn anywhere in the header, contradicting the claim that the export
moment is substituted as the displayed per-message timestamp. -/
theorem c7_timestamp_counterexample :
    msgHeaderTimeOps mZero "10/11/2026" fmtId noTimestampMsg 42 = []
    ∧ ¬ ∃ op ∈ msgHeaderBaseOps "Alice" noTimestampMsg 42
            ++ msgHeaderTimeOps mZero "10/11/2026" fmtId noTimestampMsg 42,
          opText op = some (formatDate "10/11/2026" fmtId none).toList := by
  exact ⟨rfl, by decide⟩

/-- C7, amended: `formatDate` substitutes the export moment when called
with no date string, but the per-message header renders a timestamp only
when `createdAt` is present (and non-empty): a message without `createdAt`
gets no displayed timestamp at all. -/
theorem c7_timestamp_amended (m : Measure) (now : String)
    (fmt : String → String) (msg : Message) (y : ℤ)
    (h : msg.createdAt = none) :
    msgHeaderTimeOps m now fmt msg y = [] ∧ formatDate now fmt none = now := by
  constructor
  · unfold msgHeaderTimeOps
    rw [h]
  · rfl

/-- C7, witness: the amended theorem at the concrete timestamp-less
message. -/
theorem c7_timestamp_amended_witness :
    noTimestampMsg.createdAt = none
    ∧ msgHeaderTimeOps mZero "10/11/2026" fmtId noTimestampMsg 42 = []
    ∧ formatDate "10/11/2026" fmtId none = "10/11/2026" :=
  ⟨rfl,
   (c7_timestamp_amended mZero "10/11/2026" fmtId noTimestampMsg 42 rfl).1,
   (c7_timestamp_amended mZero "10/11/2026" fmtId noTimestampMsg 42 rfl).2⟩

/-! ## Claim C8: filename sanitization -/

/-- C8: the sanitized title only contains `[A-Za-z0-9_]` characters, is
capped at 50 characters, the filename follows
`MedChat_{sanitized-title}_{ISO-date}.pdf`, and in particular
`"My / Chat: Notes?"` sanitizes to `"My___Chat__Notes_"`. -/
theorem c8_filename_sanitization (conversationTitle isoDate : String) :
    ((sanitizeTitle conversationTitle).all (fun c => keepChar c || c = '_') = true)
    ∧ (sanitizeTitle conversationTitle).length ≤ 50
    ∧ mkFilename conversationTitle isoDate
        = "MedChat_".toList ++ sanitizeTitle conversationTitle ++ "_".toList
          ++ isoDate.toList ++ ".pdf".toList
    ∧ sanitizeTitle "My / Chat: Notes?" = "My___Chat__Notes_".toList := by
  refine ⟨?_, ?_, rfl, by decide⟩
  · rw [List.all_eq_true]
    intro c hc
    unfold sanitizeTitle at hc
    have hc' := List.take_subset _ _ hc
    rw [List.mem_map] at hc'
    obtain ⟨c0, _, heq⟩ := hc'
    subst heq
    by_cases hk : keepChar c0 = true
    · simp [hk]
    · simp [hk]
  · unfold sanitizeTitle
    rw [List.length_take]
    exact min_le_left _ _

/-! ## Claim C9: citations never influence the output -/

/-- Rendering a message ignores its `citations` field. -/
theorem renderMessage_eraseCitations (m : Measure) (wrapT : WrapT)
    (now : String) (fmt : String → String) (userName : String)
    (msg : Message) (s : RState) :
    renderMessage m wrapT now fmt userName (eraseCitations msg) s
      = renderMessage m wrapT now fmt userName msg s := by
  cases msg
  rfl

/-- The message-loop fold only depends on the citation-erased messages. -/
theorem foldMessages_eraseCitations (m : Measure) (wrapT : WrapT)
    (now : String) (fmt : String → String) (userName : String) :
    ∀ (msgs1 msgs2 : List Message) (acc : List Op × RState),
      msgs1.map eraseCitations = msgs2.map eraseCitations →
      msgs1.foldl
        (fun acc msg =>
          let r := renderMessage m wrapT now fmt userName msg acc.2
          (acc.1 ++ r.1, r.2)) acc
      = msgs2.foldl
        (fun acc msg =>
          let r := renderMessage m wrapT now fmt userName msg acc.2
          (acc.1 ++ r.1, r.2)) acc := by
  intro msgs1
  induction msgs1 with
  | nil =>
    intro msgs2 acc h
    cases msgs2 with
    | nil => rfl
    | cons b t2 => simp at h
  | cons a t1 ih =>
    intro msgs2 acc h
    cases msgs2 with
    | nil => simp at h
    | cons b t2 =>
      simp only [List.map_cons, List.cons.injEq] at h
      obtain ⟨hab, ht⟩ := h
      have hr : renderMessage m wrapT now fmt userName a acc.2
          = renderMessage m wrapT now fmt userName b acc.2 := by
        rw [← renderMessage_eraseCitations m wrapT now fmt userName a acc.2,
            ← renderMessage_eraseCitations m wrapT now fmt userName b acc.2,
            hab]
      simp only [List.foldl_cons]
      rw [hr]
      exact ih t2 _ ht

/-- C9: the export output is independent of the `citations` field — two
message lists equal after erasing citations export to identical results
(same operation stream, filename and page count). -/
theorem c9_citations_noninterference (m : Measure) (wrapT : WrapT)
    (now : String) (fmt : String → String) (isoDate : String)
    (conversationTitle userName : String) (msgs1 msgs2 : List Message)
    (h : msgs1.map eraseCitations = msgs2.map eraseCitations) :
    exportConversation m wrapT now fmt isoDate conversationTitle msgs1 userName
      = exportConversation m wrapT now fmt isoDate conversationTitle msgs2 userName := by
  have hlen : msgs1.length = msgs2.length := by
    have := congrArg List.length h
    simpa using this
  unfold exportConversation
  rw [hlen, foldMessages_eraseCitations m wrapT now fmt userName msgs1 msgs2 _ h]

/-- C9, witness: two one-message lists differing only in citations give
identical exports. -/
theorem c9_citations_noninterference_witness :
    [citedMsg].map eraseCitations = [uncitedMsg].map eraseCitations
    ∧ exportConversation mZero wrapOne "now" fmtId "2026-10-11" "T" [citedMsg] "User"
        = exportConversation mZero wrapOne "now" fmtId "2026-10-11" "T" [uncitedMsg] "User" :=
  ⟨rfl,
   c9_citations_noninterference mZero wrapOne "now" fmtId "2026-10-11" "T" "User"
     [citedMsg] [uncitedMsg] rfl⟩

/-! ## Claim C6: the cursor invariant -/

theorem checksNonneg_nil : checksNonneg [] := by
  intro h hm
  cases hm

theorem checksNonneg_cons_check {c : ℤ} (hc : 0 ≤ c) {l : List Step}
    (hl : checksNonneg l) : checksNonneg (Step.check c :: l) := by
  intro h hm
  rw [List.mem_cons] at hm
  rcases hm with he | hm
  · injection he with he
    omega
  · exact hl h hm

theorem checksNonneg_cons_adv (c : ℤ) {l : List Step} (hl : checksNonneg l) :
    checksNonneg (Step.adv c :: l) := by
  intro h hm
  rw [List.mem_cons] at hm
  rcases hm with he | hm
  · exact Step.noConfusion he
  · exact hl h hm

theorem checksNonneg_append {a b : List Step} (ha : checksNonneg a)
    (hb : checksNonneg b) : checksNonneg (a ++ b) := by
  intro h hm
  rw [List.mem_append] at hm
  rcases hm with hm | hm
  · exact ha h hm
  · exact hb h hm

theorem checksNonneg_flatMap {α : Type} {l : List α} {f : α → List Step}
    (hf : ∀ x ∈ l, checksNonneg (f x)) : checksNonneg (l.flatMap f) := by
  intro h hm
  rw [List.mem_flatMap] at hm
  obtain ⟨x, hx, hm⟩ := hm
  exact hf x hx h hm

theorem lineSteps_checksNonneg (m : Measure) (line : List Char) :
    checksNonneg (lineSteps m line) := by
  unfold lineSteps
  by_cases hb : isBlank line = true
  · rw [if_pos hb]
    exact checksNonneg_cons_check (by omega) (checksNonneg_cons_adv 5 checksNonneg_nil)
  · rw [if_neg hb]
    exact checksNonneg_flatMap
      (fun x _ => checksNonneg_cons_check (by omega)
        (checksNonneg_cons_adv 6 checksNonneg_nil))

theorem refSteps_checksNonneg (wrapT : WrapT) (idx : ℕ) (r : SearchResult) :
    checksNonneg (refSteps wrapT idx r) := by
  unfold refSteps
  exact checksNonneg_cons_check (by omega)
    (checksNonneg_append
      (checksNonneg_flatMap
        (fun x _ => checksNonneg_cons_check (by omega)
          (checksNonneg_cons_adv 5 checksNonneg_nil)))
      (checksNonneg_cons_check (by omega)
        (checksNonneg_cons_adv 5 checksNonneg_nil)))

theorem searchResultsSteps_checksNonneg (wrapT : WrapT) (rs : List SearchResult) :
    checksNonneg (searchResultsSteps wrapT rs) := by
  unfold searchResultsSteps
  by_cases hrs : rs = []
  · rw [if_pos hrs]
    exact checksNonneg_nil
  · rw [if_neg hrs]
    exact checksNonneg_cons_check (by omega)
      (checksNonneg_cons_adv 6
        (checksNonneg_append
          (checksNonneg_flatMap (fun ir _ => refSteps_checksNonneg wrapT ir.1 ir.2))
          (checksNonneg_cons_adv 3 checksNonneg_nil)))

theorem msgSteps_checksNonneg (m : Measure) (wrapT : WrapT) (msg : Message) :
    checksNonneg (msgSteps m wrapT msg) := by
  unfold msgSteps
  exact checksNonneg_cons_check (by omega)
    (checksNonneg_cons_adv 10
      (checksNonneg_append
        (checksNonneg_append
          (checksNonneg_append
            (checksNonneg_flatMap (fun line _ => lineSteps_checksNonneg m line))
            (checksNonneg_cons_adv 3 checksNonneg_nil))
          (searchResultsSteps_checksNonneg wrapT msg.searchResults))
        (checksNonneg_cons_adv 5 checksNonneg_nil)))

theorem conversationSteps_checksNonneg (m : Measure) (wrapT : WrapT)
    (msgs : List Message) : checksNonneg (conversationSteps m wrapT msgs) := by
  intro h hmem
  unfold conversationSteps at hmem
  rw [List.mem_flatMap] at hmem
  obtain ⟨msg, _, hmem⟩ := hmem
  exact msgSteps_checksNonneg m wrapT msg h hmem

/-- If every `check` height is nonnegative, the cursor is within the
usable bound immediately after every `check` step, from any start state. -/
theorem checksOk_of_nonneg : ∀ (steps : List Step) (s : RState),
    checksNonneg steps → checksOk s steps := by
  intro steps
  induction steps with
  | nil => intro s _; trivial
  | cons st rest ih =>
    intro s hnn
    have hrest : checksNonneg rest := by
      intro h' hm'
      exact hnn h' (List.mem_cons_of_mem _ hm')
    cases st with
    | check h =>
      refine ⟨?_, ih _ hrest⟩
      have h0 : 0 ≤ h := hnn h (List.mem_cons_self _ _)
      show (stepRun s (Step.check h)).y ≤ usableBound
      simp only [stepRun]
      by_cases hb : s.y + h > pageHeight - margin - 10
      · rw [if_pos hb]
        show margin ≤ usableBound
        decide
      · rw [if_neg hb]
        simp only [usableBound, pageHeight, margin] at hb ⊢
        omega
    | adv h => exact ih _ hrest

/-- C6, counterexample: processing a single user message of 44 blank
logical lines drives the cursor to the usable bound 272, after which the
unchecked spacing advances (`yPosition += 3` at line 225 and
`yPosition += 5` at line 266) push the cursor to 275 and 280 with no page
break: the claimed invariant does not hold after every cursor-modifying
step. -/
theorem c6_cursor_invariant_counterexample :
    ¬ (∀ s ∈ runTrace initState (conversationSteps mZero wrapOne [blankLinesMsg]),
        s.y ≤ usableBound) := by decide

/-- C6, amended: a failing `checkNewPage` resets the cursor to the top
margin exactly and increments the page index, a passing one changes
nothing, and throughout any export the cursor is within the usable bound
`pageHeight - bottomMargin - reserve` immediately after every
`checkNewPage` call; unchecked spacing advances, however, may leave the
cursor beyond the bound until the next check triggers the break. -/
theorem c6_cursor_invariant_amended :
    (∀ (s : RState) (h : ℤ), s.y + h > usableBound →
        stepRun s (Step.check h) = ⟨margin, s.page + 1⟩)
    ∧ (∀ (s : RState) (h : ℤ), ¬ s.y + h > usableBound →
        stepRun s (Step.check h) = s)
    ∧ (∀ (m : Measure) (wrapT : WrapT) (msgs : List Message) (s : RState),
        checksOk s (conversationSteps m wrapT msgs)) := by
  refine ⟨?_, ?_, ?_⟩
  · intro s h hb
    simp only [usableBound] at hb
    simp only [stepRun]
    rw [if_pos hb]
  · intro s h hb
    simp only [usableBound] at hb
    simp only [stepRun]
    rw [if_neg hb]
  · intro m wrapT msgs s
    exact checksOk_of_nonneg _ s (conversationSteps_checksNonneg m wrapT msgs)

/-- C6, witness: the amended theorem at concrete inputs — a breaking
check from cursor 270, a passing check from cursor 42, and the whole-trace
check property on the blank-lines message. -/
theorem c6_cursor_invariant_amended_witness :
    stepRun ⟨270, 1⟩ (Step.check 5) = ⟨margin, 1 + 1⟩
    ∧ stepRun ⟨42, 1⟩ (Step.check 5) = ⟨42, 1⟩
    ∧ checksOk initState (conversationSteps mZero wrapOne [blankLinesMsg]) :=
  ⟨c6_cursor_invariant_amended.1 ⟨270, 1⟩ 5 (by decide),
   c6_cursor_invariant_amended.2.1 ⟨42, 1⟩ 5 (by decide),
   c6_cursor_invariant_amended.2.2 mZero wrapOne [blankLinesMsg] initState⟩


end PDFExport
